import Mathlib

/-!
Shallow embedding of the business-process reminder bot
(src/main.py, src/db.py) and proofs about its reminder engine,
deadline-check evaluator and chat handler.

Instants are modelled as integer seconds; `datetime.date()` becomes floor
division by 86400, which matches Python for instants before the epoch too.
Python strings are modelled as `List Char` where character-level operations
matter, so that every definition evaluates inside the kernel.
-/

namespace BusinessBot

/-- Python `str.replace(a, b)` for single-character arguments is a
character map. -/
def pyReplace1 (a b : Char) (s : List Char) : List Char :=
  s.map (fun c => if c = a then b else c)

/-- Python `str.strip()`; Python strips a wider class of Unicode whitespace
than `Char.isWhitespace`, but every input exercised by this program uses
ASCII whitespace only. -/
def pyStrip (s : List Char) : List Char :=
  ((s.dropWhile Char.isWhitespace).reverse.dropWhile Char.isWhitespace).reverse

/-- Auxiliary for `pySplitWs`, structural in the input list. -/
def pySplitWsAux (cur : List Char) : List Char → List (List Char)
  | [] => if cur = [] then [] else [cur.reverse]
  | c :: cs =>
    if c.isWhitespace then
      if cur = [] then pySplitWsAux [] cs else cur.reverse :: pySplitWsAux [] cs
    else pySplitWsAux (c :: cur) cs

/-- Python `str.split()` with no separator: split on whitespace runs,
dropping empty parts. -/
def pySplitWs (s : List Char) : List (List Char) := pySplitWsAux [] s

/-- Auxiliary for `pySplitChar`, structural in the input list. -/
def pySplitCharAux (sep : Char) (cur : List Char) : List Char → List (List Char)
  | [] => [cur.reverse]
  | c :: cs =>
    if c = sep then cur.reverse :: pySplitCharAux sep [] cs
    else pySplitCharAux sep (c :: cur) cs

/-- Python `str.split(sep)` for a one-character separator: empty parts are
kept, and the result is never empty. -/
def pySplitChar (sep : Char) (s : List Char) : List (List Char) :=
  pySplitCharAux sep [] s

/-- Bool-valued string-prefix test used to model Python `str.startswith`. -/
def charsStart : List Char → List Char → Bool
  | [], _ => true
  | _ :: _, [] => false
  | p :: ps, c :: cs => if p = c then charsStart ps cs else false

/-- Python `str.startswith(pre)`. -/
def textStartsWith (pre s : String) : Bool := charsStart pre.toList s.toList

/-- Python `str.replace(pat, rep)` for a non-empty pattern: leftmost,
non-overlapping occurrences. The input length is used as fuel so that the
recursion is structural; each step consumes at least one character. -/
def pyReplaceAux (pat rep : List Char) : Nat → List Char → List Char
  | 0, s => s
  | _ + 1, [] => []
  | fuel + 1, c :: cs =>
    if charsStart pat (c :: cs) then
      rep ++ pyReplaceAux pat rep fuel ((c :: cs).drop pat.length)
    else c :: pyReplaceAux pat rep fuel cs

/-- Python `s.replace(pat, rep)` on whole strings (non-empty `pat` only;
the single call site uses the literal pattern `"через "`). -/
def pyReplaceStr (s pat rep : String) : String :=
  String.mk (pyReplaceAux pat.toList rep.toList s.toList.length s.toList)

/-- Digit string to number, most significant digit first. -/
def digitsToNat (cs : List Char) : Nat :=
  cs.foldl (fun n c => n * 10 + (c.toNat - '0'.toNat)) 0

/-- Python `int()` on the inputs this program feeds it (plain decimal digit
strings; the sign/whitespace tolerance of `int()` is never exercised). -/
def pyInt (cs : List Char) : Option Nat :=
  if cs ≠ [] ∧ cs.all Char.isDigit then some (digitsToNat cs) else none

/-- `humanize_delta` (main.py). The signed duration is given in whole
seconds (`timedelta.total_seconds()`); Python `//` is floor division, so
the minute count floors toward negative infinity. -/
def humanize_delta (secs : Int) : String :=
  let minutes := Int.fdiv secs 60
  if minutes < 0 then
    "просрочено на " ++ toString minutes.natAbs ++ " мин"
  else if minutes < 60 then
    "через " ++ toString minutes ++ " мин"
  else
    "через " ++ toString (minutes.toNat / 60) ++ " ч " ++
      toString (minutes.toNat % 60) ++ " мин"

/-- A rendering of `humanize_delta` that follows the specification's words
instead of the source: branch on the sign of the duration, and convert
seconds to minutes by truncation toward zero (`Int.tdiv`). Used only to
compare the spec's stated policy with the code. -/
def humanize_delta_spec (secs : Int) : String :=
  let minutes := Int.tdiv secs 60
  if secs < 0 then
    "просрочено на " ++ toString minutes.natAbs ++ " мин"
  else if minutes < 60 then
    "через " ++ toString minutes ++ " мин"
  else
    "через " ++ toString (minutes.toNat / 60) ++ " ч " ++
      toString (minutes.toNat % 60) ++ " мин"

/-- `datetime.date()` on an instant in seconds: the day number, by floor
division (correct for instants before the epoch as well). -/
def dateOf (t : Int) : Int := Int.fdiv t 86400

/-- The `hhmm.split(":")` / `time(int(h), int(m))` part of
`_deadline_datetime` (main.py): `time` validates 0 ≤ hour < 24 and
0 ≤ minute < 60 and raises otherwise, so `none` models the exception. -/
def parseHM (s : String) : Option (Nat × Nat) :=
  match pySplitChar ':' s.toList with
  | [hs, ms] =>
    match pyInt hs, pyInt ms with
    | some h, some m => if h < 24 ∧ m < 60 then some (h, m) else none
    | _, _ => none
  | _ => none

/-- `_deadline_datetime` (main.py): combine the reference instant's calendar
date with the parsed time of day. `none` models the exception raised on a
malformed or out-of-range time string. -/
def deadline_datetime (reference : Int) (hhmm : String) : Option Int :=
  (parseHM hhmm).map (fun hm => dateOf reference * 86400 + ((hm.1 * 60 + hm.2) * 60 : Nat))

/-- One row of the `processes` table (db.py schema). -/
structure Process where
  id : Nat
  name : String
  owner_name : String
  periodicity : String
  deadline_time : String
  reminder_minutes_before_1 : Option Nat
  reminder_minutes_before_2 : Option Nat
  deriving DecidableEq

/-- One row of the `users` table (only the columns the loops read). -/
structure User where
  id : Nat
  telegram_id : Nat
  name : String
  deriving DecidableEq

/-- `DEFAULT_PROCESSES` (db.py), with the AUTOINCREMENT ids 1..4 assigned
by `seed_default_processes` in insertion order. -/
def DEFAULT_PROCESSES : List Process :=
  [ { id := 1, name := "Заполнить таблицу показателей", owner_name := "Кирилл",
      periodicity := "ежедневно (конец дня)", deadline_time := "23:59",
      reminder_minutes_before_1 := some (24 * 60), reminder_minutes_before_2 := some (2 * 60) },
    { id := 2, name := "Посмотреть просмотры конкурентов", owner_name := "Кирилл",
      periodicity := "ежедневно (конец дня)", deadline_time := "23:59",
      reminder_minutes_before_1 := some (24 * 60), reminder_minutes_before_2 := some (2 * 60) },
    { id := 3, name := "Заполнить КОПы", owner_name := "Иван",
      periodicity := "ежедневно до 10:30", deadline_time := "10:30",
      reminder_minutes_before_1 := some (12 * 60), reminder_minutes_before_2 := some (2 * 60) },
    { id := 4, name := "Проверить рекламные кампании", owner_name := "Иван",
      periodicity := "ежедневно до 12:00", deadline_time := "12:00",
      reminder_minutes_before_1 := some (12 * 60), reminder_minutes_before_2 := some (2 * 60) } ]

/-- `REMINDER_MINUTES` (main.py line 42): the global offset list the
reminder loop iterates for every process. -/
def REMINDER_MINUTES : List Nat := [120, 60]

/-- Identity of one `reminder_logs` row: (user_id, process_id,
deadline_date, reminder_idx); the calendar date is its day number, standing
for the `target_date.isoformat()` string, an injective image of the date. -/
abbrev LogKey := Nat × Nat × Int × Nat

/-- `record_reminder_sent` (db.py): idempotent insert under the table's
UNIQUE constraint; `true` means the row was newly inserted. -/
def record_reminder_sent (log : List LogKey) (k : LogKey) : List LogKey × Bool :=
  if k ∈ log then (log, false) else (k :: log, true)

/-- A message handed to `send_message`. `key` is the dispatch-log identity
whose fresh insertion triggered this send; `delivered` records whether the
transport call succeeded (`send_message` swallows its own errors, so this
flag never influences control flow). -/
structure Msg where
  chat : Nat
  text : String
  key : LogKey
  delivered : Bool
  deriving DecidableEq

/-- The collaborators of `reminders_loop`: the user table, the per-owner
process lookup (`Except` models a raising store), and transport success. -/
structure Env where
  users : List User
  procs : String → Except Unit (List Process)
  transportOk : Nat → String → Bool

/-- Python `enumerate(l, start=i)`. -/
def enumFrom {α : Type} (i : Nat) : List α → List (Nat × α)
  | [] => []
  | a :: rest => (i, a) :: enumFrom (i + 1) rest

/-- Python `enumerate(l, start=1)`. -/
def enumerate1 {α : Type} (l : List α) : List (Nat × α) := enumFrom 1 l

/-- The reminder text built in `reminders_loop` right before `send_message`. -/
def reminderText (p : Process) (dl now : Int) : String :=
  "Напоминание: " ++ p.name ++ " (дедлайн " ++ p.deadline_time ++ ", " ++
    p.periodicity ++ "). Осталось " ++ humanize_delta (dl - now) ++ "."

/-- The inner `for idx, minutes_before in enumerate(REMINDER_MINUTES, start=1)`
loop of `reminders_loop` for one (user, process) pair: attempt the idempotent
insert for each due slot and send only when the insert reported "new". -/
def tickSlots (tOk : Nat → String → Bool) (now : Int) (uid tgid : Nat)
    (p : Process) (dl day : Int) :
    List (Nat × Nat) → List LogKey → List LogKey × List Msg
  | [], log => (log, [])
  | (idx, mb) :: rest, log =>
    if now ≥ dl - (mb : Int) * 60 then
      let r := record_reminder_sent log (uid, p.id, day, idx)
      let res := tickSlots tOk now uid tgid p dl day rest r.1
      if r.2 then
        (res.1, { chat := tgid, text := reminderText p dl now,
                  key := (uid, p.id, day, idx),
                  delivered := tOk tgid (reminderText p dl now) } :: res.2)
      else res
    else tickSlots tOk now uid tgid p dl day rest log

/-- One process body of `reminders_loop`: compute today's deadline, skip the
process once `now >= deadline_dt`, otherwise walk the slots. The `Bool` is
the exception flag (a malformed deadline string raises out of the loop). -/
def tickProcess (tOk : Nat → String → Bool) (now : Int) (u : User)
    (p : Process) (log : List LogKey) : List LogKey × List Msg × Bool :=
  match deadline_datetime (dateOf now * 86400) p.deadline_time with
  | none => (log, [], true)
  | some dl =>
    if now ≥ dl then (log, [], false)
    else
      let res := tickSlots tOk now u.id u.telegram_id p dl (dateOf now)
        (enumerate1 REMINDER_MINUTES) log
      (res.1, res.2, false)

/-- The per-user process loop of `reminders_loop`; an exception from one
process aborts the remaining processes of the tick (Python try spans the
whole tick body). -/
def tickProcs (tOk : Nat → String → Bool) (now : Int) (u : User) :
    List Process → List LogKey → List LogKey × List Msg × Bool
  | [], log => (log, [], false)
  | p :: rest, log =>
    match tickProcess tOk now u p log with
    | (log2, msgs, true) => (log2, msgs, true)
    | (log2, msgs, false) =>
      let res := tickProcs tOk now u rest log2
      (res.1, msgs ++ res.2.1, res.2.2)

/-- The user loop of `reminders_loop`; a store failure reading one user's
processes raises and aborts the remaining users of the tick. -/
def tickUsers (env : Env) (now : Int) :
    List User → List LogKey → List LogKey × List Msg × Bool
  | [], log => (log, [], false)
  | u :: rest, log =>
    match env.procs u.name with
    | .error _ => (log, [], true)
    | .ok ps =>
      match tickProcs env.transportOk now u ps log with
      | (log2, msgs, true) => (log2, msgs, true)
      | (log2, msgs, false) =>
        let res := tickUsers env now rest log2
        (res.1, msgs ++ res.2.1, res.2.2)

/-- One tick of `reminders_loop`: the whole body runs inside
`try ... except`, so the tick always returns; the flag records whether the
tick-level handler caught an exception. -/
def reminders_tick (env : Env) (now : Int) (log : List LogKey) :
    List LogKey × List Msg × Bool :=
  tickUsers env now env.users log

/-- Repeated ticks of the scheduling loop at the given instants; the log
persists across ticks, the messages of all ticks are concatenated. -/
def runTicks (env : Env) (log : List LogKey) : List Int → List LogKey × List Msg
  | [] => (log, [])
  | t :: ts =>
    let r := reminders_tick env t log
    let rest := runTicks env r.1 ts
    (rest.1, r.2.1 ++ rest.2)

/-- A naive `datetime` value as produced by `strptime("%d-%m-%Y %H:%M")`
(seconds and microseconds are zero there). -/
structure PyDateTime where
  year : Nat
  month : Nat
  day : Nat
  hour : Nat
  minute : Nat
  deriving DecidableEq

/-- Proleptic-Gregorian leap year, as Python's `datetime` uses. -/
def isLeap (y : Nat) : Bool := y % 4 = 0 ∧ (y % 100 ≠ 0 ∨ y % 400 = 0)

/-- Length of a month in Python's `datetime` calendar. -/
def daysInMonth (y m : Nat) : Nat :=
  if m = 2 then (if isLeap y then 29 else 28)
  else if m = 4 ∨ m = 6 ∨ m = 9 ∨ m = 11 then 30
  else 31

/-- Day number of a civil date relative to 1970-01-01 (the standard
era/year-of-era computation, matching `datetime.toordinal` up to the fixed
epoch shift). -/
def daysFromCivil (y : Int) (m d : Nat) : Int :=
  let y' : Int := if m ≤ 2 then y - 1 else y
  let era : Int := Int.fdiv y' 400
  let yoe : Int := y' - era * 400
  let mp : Int := if m > 2 then (m : Int) - 3 else (m : Int) + 9
  let doy : Int := Int.fdiv (153 * mp + 2) 5 + (d : Int) - 1
  let doe : Int := yoe * 365 + Int.fdiv yoe 4 - Int.fdiv yoe 100 + doy
  era * 146097 + doe - 719468

/-- The instant (in seconds) of a naive `datetime` value. -/
def instantOf (dt : PyDateTime) : Int :=
  daysFromCivil (dt.year : Int) dt.month dt.day * 86400 +
    ((dt.hour * 3600 + dt.minute * 60 : Nat) : Int)

/-- One numeric field of `strptime`: between `minLen` and `maxLen` digits
with a value in `[lo, hi]` (the combination of the field's regex and the
range check done by the `datetime` constructor). -/
def numField (cs : List Char) (minLen maxLen lo hi : Nat) : Option Nat :=
  if minLen ≤ cs.length ∧ cs.length ≤ maxLen ∧ cs.all Char.isDigit then
    let v := digitsToNat cs
    if lo ≤ v ∧ v ≤ hi then some v else none
  else none

/-- `datetime.strptime(f"{ds} {ts}", "%d-%m-%Y %H:%M")`: since neither token
contains whitespace, the pattern decomposes into a date part and a time
part. `%d`, `%m`, `%H`, `%M` admit one or two digits within their ranges;
`%Y` is exactly four digits (CPython regex `\d\d\d\d`), with the year-zero
rejection and the day-versus-month-length validation done by the
`datetime` constructor. -/
def strptime_dmy_hm (ds ts : List Char) : Option PyDateTime :=
  match pySplitChar '-' ds, pySplitChar ':' ts with
  | [d, mo, y], [h, mi] =>
    match numField d 1 2 1 31, numField mo 1 2 1 12, numField y 4 4 1 9999,
        numField h 1 2 0 23, numField mi 1 2 0 59 with
    | some dv, some mov, some yv, some hv, some miv =>
      if dv ≤ daysInMonth yv mov then some ⟨yv, mov, dv, hv, miv⟩ else none
    | _, _, _, _, _ => none
  | _, _ => none

/-- `parse_check_datetime` (main.py) on the character list of the text:
strip, drop the command token (`split(maxsplit=1)`), chain the four
single-character replaces, re-split on whitespace, and require exactly a
date token and a time token for `strptime`. -/
def parse_check_chars (cs : List Char) : Option PyDateTime :=
  let t := pyStrip cs
  let rest := (t.dropWhile (fun c => ¬ c.isWhitespace)).dropWhile Char.isWhitespace
  if rest = [] then none
  else
    let normalized :=
      pyReplace1 'T' ' ' (pyReplace1 ',' ' ' (pyReplace1 '/' '-' (pyReplace1 '.' '-' rest)))
    match pySplitWs normalized with
    | [ds, ts] => strptime_dmy_hm ds ts
    | _ => none

/-- `parse_check_datetime` (main.py). -/
def parse_check_datetime (text : String) : Option PyDateTime :=
  parse_check_chars text.toList

/-- The chat handler's collaborator: `get_processes_for_owner` on the shared
connection (the chat paths under proof never hit a raising store). -/
structure ChatEnv where
  procsFor : String → List Process

/-- `build_help` (main.py). -/
def build_help (registered : Bool) : String :=
  let base :=
    ["Команды:",
     "/start — регистрация (введите имя, как в процессах).",
     "/my — ваши процессы.",
     "/check DD-MM-YYYY HH:MM — проверка дедлайнов и напоминаний."]
  if registered then String.intercalate "\n" base
  else String.intercalate "\n" (base ++ ["Сначала отправьте ваше имя для регистрации."])

/-- `format_process_list` (main.py). -/
def format_process_list (env : ChatEnv) (owner_name : String) : String :=
  let processes := env.procsFor owner_name
  if processes.isEmpty then "За вами пока не закреплены процессы."
  else
    let reminders_text :=
      String.intercalate ", " (REMINDER_MINUTES.map (fun m => "за " ++ toString m ++ " мин"))
    String.intercalate "\n"
      (("Ваши процессы (" ++ owner_name ++ "):") ::
       ("Напоминания: " ++ reminders_text) ::
       processes.map (fun p =>
         "• " ++ p.name ++ " — " ++ p.periodicity ++ ", дедлайн " ++ p.deadline_time ++ "."))

/-- Zero-pad a number to the given width, as `strftime` does. -/
def padNum (width n : Nat) : String :=
  let s := toString n
  String.mk (List.replicate (width - s.length) '0') ++ s

/-- `now.strftime("%d-%m-%Y %H:%M")`. -/
def fmtNow (dt : PyDateTime) : String :=
  padNum 2 dt.day ++ "-" ++ padNum 2 dt.month ++ "-" ++ padNum 4 dt.year ++ " " ++
    padNum 2 dt.hour ++ ":" ++ padNum 2 dt.minute

/-- One line of `build_check_response` for one process; `none` models the
exception a malformed deadline string raises out of the handler. -/
def check_line (now : PyDateTime) (p : Process) : Option String :=
  match deadline_datetime (instantOf now) p.deadline_time with
  | none => none
  | some dl =>
    let delta := dl - instantOf now
    let status :=
      if delta ≥ 0 then
        "✅ успеваете, осталось " ++ pyReplaceStr (humanize_delta delta) "через " ""
      else
        "⚠️ дедлайн прошел, просрочено на " ++ humanize_delta delta
    some ("• " ++ p.name ++ " — дедлайн " ++ p.deadline_time ++ " — " ++ status)

/-- All lines of `build_check_response`; the first exception aborts the
whole reply. -/
def check_lines (now : PyDateTime) : List Process → Option (List String)
  | [] => some []
  | p :: rest =>
    match check_line now p, check_lines now rest with
    | some l, some ls => some (l :: ls)
    | _, _ => none

/-- `build_check_response` (main.py); `none` means an exception escaped, so
no reply is sent at all. -/
def build_check_response (env : ChatEnv) (now : PyDateTime) (owner_name : String) :
    Option String :=
  let processes := env.procsFor owner_name
  if processes.isEmpty then some "Нет процессов для расчета."
  else
    match check_lines now processes with
    | none => none
    | some ls =>
      some (String.intercalate "\n" (("Проверка на " ++ fmtNow now ++ ":") :: ls))

/-- The onboarding prompt sent for `/start`. -/
def start_reply : String :=
  "Привет! Напиши своё имя так, как оно указано в бизнес-процессах (например: Кирилл)."

/-- The usage hint sent when the `/check` argument fails to parse. -/
def usage_hint : String := "Используйте формат: /check 15-12-2025 09:00"

/-- Python `str.strip()` on a `String`. -/
def pyStripS (s : String) : String := String.mk (pyStrip s.toList)

/-- `handle_message` (main.py) as a function of the sender's registration
state (`some name` = the stored row's name) and the incoming text. Result:
the reply sent (`none` = an exception escaped and nothing was sent) and the
name passed to `register_user`, when registration happened. -/
def handle_message (env : ChatEnv) (registered : Option String) (rawText : String) :
    Option String × Option String :=
  let text := pyStripS rawText
  if textStartsWith "/start" text then (some start_reply, none)
  else if registered = none ∧ text ≠ "" ∧ ¬ textStartsWith "/" text then
    (some ("Записал: " ++ text ++ ". Теперь доступна команда /my и /check DD-MM-YYYY HH:MM"),
     some text)
  else if registered = none then (some (build_help false), none)
  else
    let owner_name := registered.getD ""
    if textStartsWith "/my" text then (some (format_process_list env owner_name), none)
    else if textStartsWith "/check" text then
      match parse_check_datetime text with
      | none => (some usage_hint, none)
      | some dt => (build_check_response env dt owner_name, none)
    else (some (build_help true), none)

/-! ### Proof-support definitions -/

/-- The send-relevant view of a message: everything except the transport
outcome flag. -/
def msgView (m : Msg) : Nat × String × LogKey := (m.chat, m.text, m.key)

/-- Invariant tying one piece of the tick to the dispatch log: the log only
grows, every emitted message sits on a key that was newly inserted during
this piece, and no key is used for two messages. -/
def StepInv (log : List LogKey) (res : List LogKey × List Msg) : Prop :=
  (∀ k ∈ log, k ∈ res.1) ∧
  (∀ m ∈ res.2, m.key ∈ res.1 ∧ m.key ∉ log) ∧
  (res.2.map (fun m => m.key)).Nodup

/-- A dispatch identity the reminder loop can create at instant `now` for
user `u` and process `p`: the deadline has not passed, the slot index is a
1-based position into `REMINDER_MINUTES`, and that slot's offset is due. -/
def ValidSlot (now : Int) (u : User) (p : Process) (k : LogKey) : Prop :=
  ∃ dl, deadline_datetime (dateOf now * 86400) p.deadline_time = some dl ∧
    now < dl ∧
    ∃ idx off, (idx, off) ∈ enumerate1 REMINDER_MINUTES ∧
      REMINDER_MINUTES[idx - 1]? = some off ∧
      k = (u.id, p.id, dateOf now, idx) ∧ now ≥ dl - (off : Int) * 60

/-- A dispatch identity some (user, process) pair of the environment can
create at instant `now`. -/
def ValidKey (env : Env) (now : Int) (k : LogKey) : Prop :=
  ∃ u ∈ env.users, ∃ ps, env.procs u.name = .ok ps ∧ ∃ p ∈ ps, ValidSlot now u p k

/-- Transport that always succeeds. -/
def alwaysOk : Nat → String → Bool := fun _ _ => true

/-- A user row matching the first seeded owner. -/
def kirillUser : User := { id := 1, telegram_id := 100, name := "Кирилл" }

/-- A user row matching the second seeded owner. -/
def ivanUser : User := { id := 2, telegram_id := 200, name := "Иван" }

/-- Placeholder used only to extract list elements totally. -/
def fallbackProcess : Process :=
  { id := 0, name := "", owner_name := "", periodicity := "",
    deadline_time := "", reminder_minutes_before_1 := none,
    reminder_minutes_before_2 := none }

/-- The first seeded process (deadline 23:59, stored lead times 1440/120). -/
def tablProcess : Process := (DEFAULT_PROCESSES[0]?).getD fallbackProcess

/-- The third seeded process (deadline 10:30, stored lead times 720/120). -/
def kopyProcess : Process := (DEFAULT_PROCESSES[2]?).getD fallbackProcess

/-- Environment for the spec's Scenario A: one registered user owning the
23:59 process. -/
def scenarioAEnv : Env :=
  { users := [kirillUser],
    procs := fun n => .ok (if n = "Кирилл" then [tablProcess] else []),
    transportOk := alwaysOk }

/-- A user whose process lookup will be made to fail. -/
def annaUser : User := { id := 7, telegram_id := 700, name := "Анна" }

/-- Environment where reading the first user's processes raises while the
second user has a process that is due at 09:30 of day 0. -/
def envFailRead : Env :=
  { users := [annaUser, ivanUser],
    procs := fun n =>
      if n = "Анна" then .error ()
      else .ok (if n = "Иван" then [kopyProcess] else []),
    transportOk := alwaysOk }

/-- The same environment with the first user's process read repaired. -/
def envOkRead : Env :=
  { users := [annaUser, ivanUser],
    procs := fun n => .ok (if n = "Иван" then [kopyProcess] else []),
    transportOk := alwaysOk }

/-- A chat store with no processes. -/
def emptyChatEnv : ChatEnv := ⟨fun _ => []⟩

/-- The exact message the Scenario A tick at 21:59 emits. -/
def scenarioAMsg1 : Msg :=
  { chat := 100,
    text := "Напоминание: Заполнить таблицу показателей (дедлайн 23:59, ежедневно (конец дня)). Осталось через 2 ч 0 мин.",
    key := (1, 1, 0, 1), delivered := true }

/-- The character normalization applied by `parse_check_datetime`'s chain
of `replace` calls, as a single map. -/
def normChar (c : Char) : Char :=
  if c = '.' then '-' else if c = '/' then '-'
  else if c = ',' then ' ' else if c = 'T' then ' ' else c

/-- Exchange `.` and `/` everywhere in a string. -/
def swapDotSlash (c : Char) : Char :=
  if c = '.' then '/' else if c = '/' then '.' else c

/-- Exchange `,` and `T` everywhere in a string. -/
def swapCommaT (c : Char) : Char :=
  if c = ',' then 'T' else if c = 'T' then ',' else c

/-- Apply a character map to a string. -/
def mapStr (f : Char → Char) (s : String) : String := String.mk (s.toList.map f)

/-! ### Invariant lemmas for the reminder tick -/

theorem StepInv_nil {log : List LogKey} : StepInv log (log, []) := by
  refine ⟨fun k hk => hk, by simp, by simp⟩

theorem StepInv_comp {log l1 l2 : List LogKey} {m1 m2 : List Msg}
    (h1 : StepInv log (l1, m1)) (h2 : StepInv l1 (l2, m2)) :
    StepInv log (l2, m1 ++ m2) := by
  obtain ⟨mono1, new1, nd1⟩ := h1
  obtain ⟨mono2, new2, nd2⟩ := h2
  refine ⟨fun k hk => mono2 _ (mono1 _ hk), ?_, ?_⟩
  · intro m hm
    rcases List.mem_append.mp hm with h | h
    · exact ⟨mono2 _ (new1 m h).1, (new1 m h).2⟩
    · exact ⟨(new2 m h).1, fun hc => (new2 m h).2 (mono1 _ hc)⟩
  · rw [List.map_append]
    refine List.Nodup.append nd1 nd2 ?_
    intro k hk1 hk2
    obtain ⟨m, hm, hkey⟩ := List.mem_map.mp hk1
    obtain ⟨m', hm', hkey'⟩ := List.mem_map.mp hk2
    have hmem : m'.key ∈ l1 := by rw [hkey', ← hkey]; exact (new1 m hm).1
    exact (new2 m' hm').2 hmem

theorem tickSlots_inv (tOk : Nat → String → Bool) (now : Int) (uid tgid : Nat)
    (p : Process) (dl day : Int) :
    ∀ (pairs : List (Nat × Nat)) (log : List LogKey),
      StepInv log (tickSlots tOk now uid tgid p dl day pairs log)
  | [], log => by simpa [tickSlots] using StepInv_nil
  | (idx, mb) :: rest, log => by
    by_cases hdue : now ≥ dl - (mb : Int) * 60
    · by_cases hmem : (uid, p.id, day, idx) ∈ log
      · have ih := tickSlots_inv tOk now uid tgid p dl day rest log
        simpa [tickSlots, record_reminder_sent, hdue, hmem] using ih
      · have ih := tickSlots_inv tOk now uid tgid p dl day rest
          ((uid, p.id, day, idx) :: log)
        have h1 : StepInv log ((uid, p.id, day, idx) :: log,
            [{ chat := tgid, text := reminderText p dl now,
               key := (uid, p.id, day, idx),
               delivered := tOk tgid (reminderText p dl now) }]) := by
          refine ⟨fun k hk => List.mem_cons_of_mem _ hk, ?_, by simp⟩
          intro m hm
          rcases List.mem_singleton.mp hm with rfl
          exact ⟨List.mem_cons_self _ _, hmem⟩
        have := StepInv_comp h1 ih
        simpa [tickSlots, record_reminder_sent, hdue, hmem] using this
    · have ih := tickSlots_inv tOk now uid tgid p dl day rest log
      simpa [tickSlots, hdue] using ih

theorem tickProcess_inv (tOk : Nat → String → Bool) (now : Int) (u : User)
    (p : Process) (log : List LogKey) :
    StepInv log ((tickProcess tOk now u p log).1, (tickProcess tOk now u p log).2.1) := by
  unfold tickProcess
  cases hd : deadline_datetime (dateOf now * 86400) p.deadline_time with
  | none => exact StepInv_nil
  | some dl =>
    by_cases hge : now ≥ dl
    · simpa [hge] using StepInv_nil
    · simpa [hge] using tickSlots_inv tOk now u.id u.telegram_id p dl (dateOf now)
        (enumerate1 REMINDER_MINUTES) log

theorem tickProcs_inv (tOk : Nat → String → Bool) (now : Int) (u : User) :
    ∀ (ps : List Process) (log : List LogKey),
      StepInv log ((tickProcs tOk now u ps log).1, (tickProcs tOk now u ps log).2.1)
  | [], log => by simpa [tickProcs] using StepInv_nil
  | p :: rest, log => by
    have hp := tickProcess_inv tOk now u p log
    rcases hres : tickProcess tOk now u p log with ⟨l2, m2, b⟩
    rw [hres] at hp
    cases b with
    | true => simpa [tickProcs, hres] using hp
    | false =>
      have ih := tickProcs_inv tOk now u rest l2
      have := StepInv_comp hp ih
      simpa [tickProcs, hres] using this

theorem tickUsers_inv (env : Env) (now : Int) :
    ∀ (us : List User) (log : List LogKey),
      StepInv log ((tickUsers env now us log).1, (tickUsers env now us log).2.1)
  | [], log => by simpa [tickUsers] using StepInv_nil
  | u :: rest, log => by
    cases hpr : env.procs u.name with
    | error e => simpa [tickUsers, hpr] using StepInv_nil
    | ok ps =>
      have hp := tickProcs_inv env.transportOk now u ps log
      rcases hres : tickProcs env.transportOk now u ps log with ⟨l2, m2, b⟩
      rw [hres] at hp
      cases b with
      | true => simpa [tickUsers, hpr, hres] using hp
      | false =>
        have ih := tickUsers_inv env now rest l2
        have := StepInv_comp hp ih
        simpa [tickUsers, hpr, hres] using this

theorem reminders_tick_inv (env : Env) (now : Int) (log : List LogKey) :
    StepInv log ((reminders_tick env now log).1, (reminders_tick env now log).2.1) :=
  tickUsers_inv env now env.users log

theorem runTicks_inv (env : Env) :
    ∀ (ts : List Int) (log : List LogKey),
      StepInv log (runTicks env log ts)
  | [], log => by simpa [runTicks] using StepInv_nil
  | t :: ts, log => by
    have h1 := reminders_tick_inv env t log
    have ih := runTicks_inv env ts (reminders_tick env t log).1
    have := StepInv_comp h1 ih
    simpa [runTicks] using this

theorem count_le_one {msgs : List Msg}
    (h : (msgs.map (fun m => m.key)).Nodup) (k : LogKey) :
    (msgs.filter (fun m => m.key = k)).length ≤ 1 := by
  induction msgs with
  | nil => simp
  | cons m rest ih =>
    simp only [List.map_cons, List.nodup_cons] at h
    by_cases hk : m.key = k
    · have hnil : rest.filter (fun m' => m'.key = k) = [] := by
        refine List.filter_eq_nil_iff.mpr ?_
        intro a ha hc
        have hak : a.key = k := by simpa using hc
        exact h.1 (List.mem_map.mpr ⟨a, ha, hak.trans hk.symm⟩)
      simp [List.filter_cons, hk, hnil]
    · simp [List.filter_cons, hk, ih h.2]

/-! ### The transport outcome never influences the tick -/

theorem tickSlots_transport (tOk tOk' : Nat → String → Bool) (now : Int)
    (uid tgid : Nat) (p : Process) (dl day : Int) :
    ∀ (pairs : List (Nat × Nat)) (log : List LogKey),
      (tickSlots tOk' now uid tgid p dl day pairs log).1 =
        (tickSlots tOk now uid tgid p dl day pairs log).1 ∧
      (tickSlots tOk' now uid tgid p dl day pairs log).2.map msgView =
        (tickSlots tOk now uid tgid p dl day pairs log).2.map msgView
  | [], log => by simp [tickSlots]
  | (idx, mb) :: rest, log => by
    by_cases hdue : now ≥ dl - (mb : Int) * 60
    · by_cases hmem : (uid, p.id, day, idx) ∈ log
      · have ih := tickSlots_transport tOk tOk' now uid tgid p dl day rest log
        simpa [tickSlots, record_reminder_sent, hdue, hmem] using ih
      · have ih := tickSlots_transport tOk tOk' now uid tgid p dl day rest
          ((uid, p.id, day, idx) :: log)
        simp [tickSlots, record_reminder_sent, hdue, hmem, msgView, ih.1, ih.2]
    · have ih := tickSlots_transport tOk tOk' now uid tgid p dl day rest log
      simpa [tickSlots, hdue] using ih

theorem tickProcess_transport (tOk tOk' : Nat → String → Bool) (now : Int)
    (u : User) (p : Process) (log : List LogKey) :
    (tickProcess tOk' now u p log).1 = (tickProcess tOk now u p log).1 ∧
    (tickProcess tOk' now u p log).2.1.map msgView =
      (tickProcess tOk now u p log).2.1.map msgView ∧
    (tickProcess tOk' now u p log).2.2 = (tickProcess tOk now u p log).2.2 := by
  unfold tickProcess
  cases hd : deadline_datetime (dateOf now * 86400) p.deadline_time with
  | none => simp
  | some dl =>
    by_cases hge : now ≥ dl
    · simp [hge]
    · have h := tickSlots_transport tOk tOk' now u.id u.telegram_id p dl (dateOf now)
        (enumerate1 REMINDER_MINUTES) log
      simp [hge, h.1, h.2]

theorem tickProcs_transport (tOk tOk' : Nat → String → Bool) (now : Int) (u : User) :
    ∀ (ps : List Process) (log : List LogKey),
      (tickProcs tOk' now u ps log).1 = (tickProcs tOk now u ps log).1 ∧
      (tickProcs tOk' now u ps log).2.1.map msgView =
        (tickProcs tOk now u ps log).2.1.map msgView ∧
      (tickProcs tOk' now u ps log).2.2 = (tickProcs tOk now u ps log).2.2
  | [], log => by simp [tickProcs]
  | p :: rest, log => by
    have hp := tickProcess_transport tOk tOk' now u p log
    rcases hres : tickProcess tOk now u p log with ⟨l2, m2, b⟩
    rcases hres' : tickProcess tOk' now u p log with ⟨l2', m2', b'⟩
    rw [hres, hres'] at hp
    obtain ⟨hl, hm, hb⟩ := hp
    simp only at hl hm hb
    subst hl hb
    cases b' with
    | true => simpa [tickProcs, hres, hres'] using hm
    | false =>
      have ih := tickProcs_transport tOk tOk' now u rest l2'
      simp [tickProcs, hres, hres', hm, ih.1, ih.2.1, ih.2.2]

theorem tickUsers_transport (env : Env) (tOk' : Nat → String → Bool) (now : Int) :
    ∀ (us : List User) (log : List LogKey),
      (tickUsers { env with transportOk := tOk' } now us log).1 =
        (tickUsers env now us log).1 ∧
      (tickUsers { env with transportOk := tOk' } now us log).2.1.map msgView =
        (tickUsers env now us log).2.1.map msgView ∧
      (tickUsers { env with transportOk := tOk' } now us log).2.2 =
        (tickUsers env now us log).2.2
  | [], log => by simp [tickUsers]
  | u :: rest, log => by
    cases hpr : env.procs u.name with
    | error e => simp [tickUsers, hpr]
    | ok ps =>
      have hp := tickProcs_transport env.transportOk tOk' now u ps log
      rcases hres : tickProcs env.transportOk now u ps log with ⟨l2, m2, b⟩
      rcases hres' : tickProcs tOk' now u ps log with ⟨l2', m2', b'⟩
      rw [hres, hres'] at hp
      obtain ⟨hl, hm, hb⟩ := hp
      simp only at hl hm hb
      subst hl hb
      cases b' with
      | true => simpa [tickUsers, hpr, hres, hres'] using hm
      | false =>
        have ih := tickUsers_transport env tOk' now rest l2'
        simp [tickUsers, hpr, hres, hres', hm, ih.1, ih.2.1, ih.2.2]

/-! ### A store failure is caught at the tick boundary -/

theorem tickUsers_append_ok (env : Env) (now : Int) :
    ∀ (us1 us2 : List User) (log l1 : List LogKey) (m1 : List Msg),
      tickUsers env now us1 log = (l1, m1, false) →
      tickUsers env now (us1 ++ us2) log =
        ((tickUsers env now us2 l1).1, m1 ++ (tickUsers env now us2 l1).2.1,
          (tickUsers env now us2 l1).2.2)
  | [], us2, log, l1, m1, h => by
    have h' : log = l1 ∧ ([] : List Msg) = m1 := by
      simpa [tickUsers, Prod.ext_iff] using h
    obtain ⟨rfl, rfl⟩ := h'
    simp [tickUsers]
  | v :: rest, us2, log, l1, m1, h => by
    cases hpr : env.procs v.name with
    | error e => simp [tickUsers, hpr, Prod.ext_iff] at h
    | ok ps =>
      rcases hps : tickProcs env.transportOk now v ps log with ⟨l2, m2, b⟩
      cases b with
      | true => simp [tickUsers, hpr, hps, Prod.ext_iff] at h
      | false =>
        rcases hrest : tickUsers env now rest l2 with ⟨l3, m3, b3⟩
        have h' : l3 = l1 ∧ m2 ++ m3 = m1 ∧ b3 = false := by
          have := h
          simp only [tickUsers, hpr, hps, hrest] at this
          simpa [Prod.ext_iff] using this
        obtain ⟨rfl, rfl, rfl⟩ := h'
        have ih := tickUsers_append_ok env now rest us2 l2 l3 m3 hrest
        simp [tickUsers, hpr, hps, ih, List.append_assoc]

/-! ### Every key ever inserted comes from a due, in-range slot -/

theorem tickSlots_new_key (tOk : Nat → String → Bool) (now : Int) (uid tgid : Nat)
    (p : Process) (dl day : Int) :
    ∀ (pairs : List (Nat × Nat)) (log : List LogKey) (k : LogKey),
      k ∈ (tickSlots tOk now uid tgid p dl day pairs log).1 →
      k ∈ log ∨ ∃ idx off, (idx, off) ∈ pairs ∧ k = (uid, p.id, day, idx) ∧
        now ≥ dl - (off : Int) * 60
  | [], log, k, hk => Or.inl (by simpa [tickSlots] using hk)
  | (idx, mb) :: rest, log, k, hk => by
    by_cases hdue : now ≥ dl - (mb : Int) * 60
    · by_cases hmem : (uid, p.id, day, idx) ∈ log
      · rw [tickSlots] at hk
        simp only [record_reminder_sent, if_pos hdue, if_pos hmem] at hk
        rcases tickSlots_new_key tOk now uid tgid p dl day rest log k hk with h | ⟨i, o, hp, he, hd⟩
        · exact Or.inl h
        · exact Or.inr ⟨i, o, List.mem_cons_of_mem _ hp, he, hd⟩
      · rw [tickSlots] at hk
        simp only [record_reminder_sent, if_pos hdue, if_neg hmem] at hk
        rcases tickSlots_new_key tOk now uid tgid p dl day rest
            ((uid, p.id, day, idx) :: log) k hk with h | ⟨i, o, hp, he, hd⟩
        · rcases List.mem_cons.mp h with rfl | h'
          · exact Or.inr ⟨idx, mb, List.mem_cons_self _ _, rfl, hdue⟩
          · exact Or.inl h'
        · exact Or.inr ⟨i, o, List.mem_cons_of_mem _ hp, he, hd⟩
    · rw [tickSlots] at hk
      simp only [if_neg hdue] at hk
      rcases tickSlots_new_key tOk now uid tgid p dl day rest log k hk with h | ⟨i, o, hp, he, hd⟩
      · exact Or.inl h
      · exact Or.inr ⟨i, o, List.mem_cons_of_mem _ hp, he, hd⟩

theorem tickProcess_new_key (tOk : Nat → String → Bool) (now : Int) (u : User)
    (p : Process) (log : List LogKey) (k : LogKey) :
    k ∈ (tickProcess tOk now u p log).1 → k ∈ log ∨ ValidSlot now u p k := by
  unfold tickProcess
  cases hd : deadline_datetime (dateOf now * 86400) p.deadline_time with
  | none => intro hk; exact Or.inl (by simpa using hk)
  | some dl =>
    by_cases hge : now ≥ dl
    · intro hk; exact Or.inl (by simpa [hge] using hk)
    · intro hk
      simp only [hge, if_false] at hk
      rcases tickSlots_new_key tOk now u.id u.telegram_id p dl (dateOf now)
          (enumerate1 REMINDER_MINUTES) log k hk with h | ⟨idx, off, hpair, hkey, hdue⟩
      · exact Or.inl h
      · have hone : (idx, off) = (1, 120) ∨ (idx, off) = (2, 60) := by
          simpa [enumerate1, enumFrom, REMINDER_MINUTES] using hpair
        have hget : REMINDER_MINUTES[idx - 1]? = some off := by
          rcases hone with h1 | h1 <;>
            (injection h1 with ha hb; subst ha; subst hb; decide)
        exact Or.inr ⟨dl, hd, by omega, idx, off, hpair, hget, hkey, hdue⟩

theorem tickProcs_new_key (tOk : Nat → String → Bool) (now : Int) (u : User) :
    ∀ (ps : List Process) (log : List LogKey) (k : LogKey),
      k ∈ (tickProcs tOk now u ps log).1 →
      k ∈ log ∨ ∃ p ∈ ps, ValidSlot now u p k
  | [], log, k, hk => Or.inl (by simpa [tickProcs] using hk)
  | p :: rest, log, k, hk => by
    rcases hres : tickProcess tOk now u p log with ⟨l2, m2, b⟩
    have hstep : k ∈ l2 → k ∈ log ∨ ValidSlot now u p k := by
      intro h2
      have := tickProcess_new_key tOk now u p log k
      rw [hres] at this
      exact this h2
    cases b with
    | true =>
      rw [tickProcs] at hk
      simp only [hres] at hk
      rcases hstep hk with h | h
      · exact Or.inl h
      · exact Or.inr ⟨p, List.mem_cons_self _ _, h⟩
    | false =>
      rw [tickProcs] at hk
      simp only [hres] at hk
      rcases tickProcs_new_key tOk now u rest l2 k hk with h | ⟨q, hq, hv⟩
      · rcases hstep h with h' | h'
        · exact Or.inl h'
        · exact Or.inr ⟨p, List.mem_cons_self _ _, h'⟩
      · exact Or.inr ⟨q, List.mem_cons_of_mem _ hq, hv⟩

theorem tickUsers_new_key (env : Env) (now : Int) :
    ∀ (us : List User) (log : List LogKey) (k : LogKey),
      k ∈ (tickUsers env now us log).1 →
      k ∈ log ∨ ∃ u ∈ us, ∃ ps, env.procs u.name = .ok ps ∧ ∃ p ∈ ps, ValidSlot now u p k
  | [], log, k, hk => Or.inl (by simpa [tickUsers] using hk)
  | u :: rest, log, k, hk => by
    cases hpr : env.procs u.name with
    | error e =>
      rw [tickUsers] at hk
      simp only [hpr] at hk
      exact Or.inl hk
    | ok ps =>
      rcases hres : tickProcs env.transportOk now u ps log with ⟨l2, m2, b⟩
      have hstep : k ∈ l2 → k ∈ log ∨ ∃ p ∈ ps, ValidSlot now u p k := by
        intro h2
        have := tickProcs_new_key env.transportOk now u ps log k
        rw [hres] at this
        exact this h2
      cases b with
      | true =>
        rw [tickUsers] at hk
        simp only [hpr, hres] at hk
        rcases hstep hk with h | ⟨p, hp, hv⟩
        · exact Or.inl h
        · exact Or.inr ⟨u, List.mem_cons_self _ _, ps, hpr, p, hp, hv⟩
      | false =>
        rw [tickUsers] at hk
        simp only [hpr, hres] at hk
        rcases tickUsers_new_key env now rest l2 k hk with h | ⟨v, hv, ps', hps', p, hp, hvs⟩
        · rcases hstep h with h' | ⟨p, hp, hvv⟩
          · exact Or.inl h'
          · exact Or.inr ⟨u, List.mem_cons_self _ _, ps, hpr, p, hp, hvv⟩
        · exact Or.inr ⟨v, List.mem_cons_of_mem _ hv, ps', hps', p, hp, hvs⟩

theorem runTicks_new_key (env : Env) :
    ∀ (ts : List Int) (log : List LogKey) (k : LogKey),
      k ∈ (runTicks env log ts).1 →
      k ∈ log ∨ ∃ t ∈ ts, ValidKey env t k
  | [], log, k, hk => Or.inl (by simpa [runTicks] using hk)
  | t :: ts, log, k, hk => by
    rw [runTicks] at hk
    simp only at hk
    rcases runTicks_new_key env ts (reminders_tick env t log).1 k hk with h | ⟨t', ht', hv⟩
    · rcases tickUsers_new_key env t env.users log k h with h' | h'
      · exact Or.inl h'
      · exact Or.inr ⟨t, List.mem_cons_self _ _, h'⟩
    · exact Or.inr ⟨t', List.mem_cons_of_mem _ ht', hv⟩

/-! ### Date helpers -/

theorem dateOf_mul (d : Int) : dateOf (d * 86400) = d := by
  unfold dateOf
  rw [Int.fdiv_eq_ediv _ (by norm_num)]
  omega

theorem deadline_datetime_day (r : Int) (s : String) :
    deadline_datetime (dateOf r * 86400) s = deadline_datetime r s := by
  simp [deadline_datetime, dateOf_mul]

/-! ### Delimiter normalization in the check-command parser -/

theorem normalize_eq_map (rest : List Char) :
    pyReplace1 'T' ' ' (pyReplace1 ',' ' ' (pyReplace1 '/' '-' (pyReplace1 '.' '-' rest))) =
      rest.map normChar := by
  simp only [pyReplace1, List.map_map]
  refine List.map_congr_left ?_
  intro c _
  by_cases h1 : c = '.'
  · subst h1; rfl
  · by_cases h2 : c = '/'
    · subst h2; rfl
    · by_cases h3 : c = ','
      · subst h3; rfl
      · by_cases h4 : c = 'T'
        · subst h4; rfl
        · simp [Function.comp, normChar, h1, h2, h3, h4]

theorem pyStrip_map (f : Char → Char)
    (hws : ∀ c, (f c).isWhitespace = c.isWhitespace) (cs : List Char) :
    pyStrip (cs.map f) = (pyStrip cs).map f := by
  have hfun : (Char.isWhitespace ∘ f) = Char.isWhitespace := funext hws
  unfold pyStrip
  rw [List.dropWhile_map, hfun, ← List.map_reverse, List.dropWhile_map, hfun,
    ← List.map_reverse]

theorem parse_chars_map_inv (f : Char → Char)
    (hws : ∀ c, (f c).isWhitespace = c.isWhitespace)
    (hnorm : ∀ c, normChar (f c) = normChar c) (cs : List Char) :
    parse_check_chars (cs.map f) = parse_check_chars cs := by
  have hp1 : (((fun c => ¬ c.isWhitespace) : Char → Bool) ∘ f) =
      ((fun c => ¬ c.isWhitespace) : Char → Bool) := by
    funext c
    simp [Function.comp, hws c]
  have hp2 : (Char.isWhitespace ∘ f) = Char.isWhitespace := funext hws
  unfold parse_check_chars
  simp only [pyStrip_map f hws cs, List.dropWhile_map, hp1, hp2]
  set r := (((pyStrip cs).dropWhile (fun c => ¬ c.isWhitespace)).dropWhile
    Char.isWhitespace) with hr
  by_cases hre : r = []
  · simp [hre]
  · have hmf : ¬ (List.map f r = []) := by simpa [List.map_eq_nil_iff] using hre
    simp only [if_neg hre, if_neg hmf]
    have hmaps : List.map (normChar ∘ f) r = List.map normChar r :=
      List.map_congr_left (fun c _ => hnorm c)
    rw [normalize_eq_map, normalize_eq_map, List.map_map, hmaps]

theorem charsStart_eq_true {p : List Char} :
    ∀ {s : List Char}, charsStart p s = true ↔ ∃ t, s = p ++ t := by
  induction p with
  | nil => intro s; simp [charsStart]
  | cons a ps ih =>
    intro s
    cases s with
    | nil => simp [charsStart]
    | cons b bs =>
      by_cases hab : a = b
      · subst hab
        simp [charsStart, ih]
      · simp only [charsStart, if_neg hab]
        constructor
        · intro h; simp at h
        · rintro ⟨t, ht⟩
          injection ht with h1 h2
          exact absurd h1.symm hab

theorem check_not_start {t : List Char}
    (h : charsStart ("/check".toList) t = true) :
    charsStart ("/start".toList) t = false := by
  obtain ⟨tail, rfl⟩ := charsStart_eq_true.mp h
  rfl

theorem check_not_my {t : List Char}
    (h : charsStart ("/check".toList) t = true) :
    charsStart ("/my".toList) t = false := by
  obtain ⟨tail, rfl⟩ := charsStart_eq_true.mp h
  rfl

theorem swapDotSlash_ws (c : Char) :
    (swapDotSlash c).isWhitespace = c.isWhitespace := by
  unfold swapDotSlash
  by_cases h1 : c = '.'
  · subst h1; decide
  · by_cases h2 : c = '/'
    · subst h2; decide
    · simp [h1, h2]

theorem swapDotSlash_norm (c : Char) :
    normChar (swapDotSlash c) = normChar c := by
  unfold swapDotSlash
  by_cases h1 : c = '.'
  · subst h1; decide
  · by_cases h2 : c = '/'
    · subst h2; decide
    · simp [h1, h2]

theorem swapCommaT_ws (c : Char) :
    (swapCommaT c).isWhitespace = c.isWhitespace := by
  unfold swapCommaT
  by_cases h1 : c = ','
  · subst h1; decide
  · by_cases h2 : c = 'T'
    · subst h2; decide
    · simp [h1, h2]

theorem swapCommaT_norm (c : Char) :
    normChar (swapCommaT c) = normChar c := by
  unfold swapCommaT
  by_cases h1 : c = ','
  · subst h1; decide
  · by_cases h2 : c = 'T'
    · subst h2; decide
    · simp [h1, h2]

/-! ### Claim theorems -/

/-- C1: across any number of reminder-engine ticks (including repeated
ticks at the same instant), at most one reminder message is ever dispatched
for a given (user, process, date, slot) identity — a message goes out only
when `record_reminder_sent` newly created the record — and a second
`record_reminder_sent` call with an identical identity returns `false`. -/
theorem C1_dispatch_at_most_once :
    (∀ (env : Env) (log : List LogKey) (ts : List Int) (k : LogKey),
      ((runTicks env log ts).2.filter (fun m => m.key = k)).length ≤ 1) ∧
    (∀ (log : List LogKey) (k : LogKey),
      (record_reminder_sent (record_reminder_sent log k).1 k).2 = false) := by
  constructor
  · intro env log ts k
    exact count_le_one (runTicks_inv env ts log).2.2 k
  · intro log k
    by_cases h : k ∈ log
    · simp [record_reminder_sent, h]
    · simp [record_reminder_sent, h]

/-- C2: whenever the tick instant is at or after the day's deadline instant
— including exact equality — the reminder engine skips the process: the
dispatch log is unchanged, no message is sent, no error is raised. -/
theorem C2_skip_at_or_after_deadline (tOk : Nat → String → Bool) (now : Int)
    (u : User) (p : Process) (log : List LogKey) (dl : Int)
    (hdl : deadline_datetime (dateOf now * 86400) p.deadline_time = some dl)
    (hge : now ≥ dl) :
    tickProcess tOk now u p log = (log, [], false) := by
  simp [tickProcess, hdl, hge]

/-- Witness for C2 at the spec's stated boundary: deadline 10:30 evaluated
at exactly 10:30 of day 0 (instant 37800). -/
theorem C2_skip_at_or_after_deadline_witness :
    tickProcess alwaysOk 37800 ivanUser kopyProcess [] = ([], [], false) :=
  C2_skip_at_or_after_deadline alwaysOk 37800 ivanUser kopyProcess [] 37800
    (by decide) (by decide)

/-- C3 (amended): the reminder engine's per-process evaluation is
independent of the process's stored lead times — erasing both stored
`reminder_minutes_before` fields changes nothing, because the offsets the
loop iterates come from the global `REMINDER_MINUTES` list. -/
theorem C3_stored_lead_times_ignored (tOk : Nat → String → Bool) (now : Int)
    (u : User) (p : Process) (log : List LogKey) :
    tickProcess tOk now u
      { p with reminder_minutes_before_1 := none,
               reminder_minutes_before_2 := none } log =
      tickProcess tOk now u p log := by
  cases p
  rfl

/-- C3 (counterexample): at 08:00 of day 0 the engine finds no due offset
for the seeded process "Заполнить КОПы" (stored lead times 720 and 120
minutes, deadline 10:30) and sends nothing, although evaluating that
process's own stored lead times at the very same instant fires a slot; the
list the loop iterates is the global [120, 60], not the stored one. -/
theorem C3_counterexample :
    kopyProcess.reminder_minutes_before_1 = some 720 ∧
    kopyProcess.reminder_minutes_before_2 = some 120 ∧
    REMINDER_MINUTES = [120, 60] ∧
    (tickProcess alwaysOk 28800 ivanUser kopyProcess []).2.1 = [] ∧
    (tickSlots alwaysOk 28800 ivanUser.id ivanUser.telegram_id kopyProcess
      37800 0 (enumerate1 [720, 120]) []).2 ≠ [] := by
  refine ⟨by decide, by decide, by decide, by decide, by decide⟩

/-- C4: every dispatch record the engine ever creates is explained by a
valid slot — its index is a 1-based position into the configured offset
list whose own offset was due and whose deadline had not passed; the
enumeration pairs index 1 with 120 and index 2 with 60; and the spec's
Scenario A trace (deadline 23:59, ticks at 21:59, 22:00, 22:59 of day 0)
records and sends slot 1, then nothing, then records and sends slot 2. -/
theorem C4_slot_index_matches_offset :
    (∀ (env : Env) (log : List LogKey) (ts : List Int) (k : LogKey),
      k ∈ (runTicks env log ts).1 → k ∈ log ∨ ∃ t ∈ ts, ValidKey env t k) ∧
    enumerate1 REMINDER_MINUTES = [(1, 120), (2, 60)] ∧
    ((reminders_tick scenarioAEnv 79140 []).2.1.map (fun m => m.key) =
        [(1, 1, 0, 1)] ∧
      (reminders_tick scenarioAEnv 79140 []).1 = [(1, 1, 0, 1)]) ∧
    (reminders_tick scenarioAEnv 79200 [(1, 1, 0, 1)]).2.1 = [] ∧
    (reminders_tick scenarioAEnv 82740 [(1, 1, 0, 1)]).2.1.map (fun m => m.key) =
      [(1, 1, 0, 2)] := by
  refine ⟨?_, by decide, ⟨by decide, by decide⟩, by decide, by decide⟩
  intro env log ts k hk
  exact runTicks_new_key env ts log k hk

/-- Witness for C4: the record created by the Scenario A tick at 21:59 is
explained by a valid in-range slot of a tick instant. -/
theorem C4_slot_index_matches_offset_witness :
    ((1, 1, 0, 1) : LogKey) ∈ ([] : List LogKey) ∨
      ∃ t ∈ [(79140 : Int)], ValidKey scenarioAEnv t (1, 1, 0, 1) :=
  C4_slot_index_matches_offset.1 scenarioAEnv [] [79140] (1, 1, 0, 1) (by decide)

/-- C5: a message reaches the transport only for an identity whose dispatch
record was newly created by this very tick — every sent message's key is in
the final log and was absent from the log at tick start, so "delivered but
not recorded" is unreachable. -/
theorem C5_recorded_before_delivered (env : Env) (now : Int) (log : List LogKey) :
    ∀ m ∈ (reminders_tick env now log).2.1,
      m.key ∈ (reminders_tick env now log).1 ∧ m.key ∉ log := by
  intro m hm
  exact (reminders_tick_inv env now log).2.1 m hm

/-- Witness for C5: the Scenario A message of the 21:59 tick is recorded. -/
theorem C5_recorded_before_delivered_witness :
    scenarioAMsg1.key ∈ (reminders_tick scenarioAEnv 79140 []).1 ∧
      scenarioAMsg1.key ∉ ([] : List LogKey) :=
  C5_recorded_before_delivered scenarioAEnv 79140 [] scenarioAMsg1 (by decide)

/-- C6 (counterexample): at −30 seconds the code floors toward negative
infinity and reports one minute overdue, while the spec's stated
toward-zero truncation yields zero minutes. -/
theorem C6_counterexample :
    humanize_delta (-30) = "просрочено на 1 мин" ∧
    humanize_delta_spec (-30) = "просрочено на 0 мин" ∧
    humanize_delta (-30) ≠ humanize_delta_spec (-30) := by
  refine ⟨by decide, by decide, by decide⟩

/-- C6 (amended): `humanize_delta` renders negative durations as "overdue
by N minutes" with N = |⌊seconds/60⌋|, non-negative durations under 60
minutes as "in N minutes", and durations of 60+ minutes as "in H hours M
minutes" with H = minutes / 60 and M = minutes % 60 — where the
seconds-to-minutes conversion floors toward negative infinity, not toward
zero. -/
theorem C6_humanize_policy (secs : Int) :
    (secs < 0 → humanize_delta secs =
      "просрочено на " ++ toString (Int.fdiv secs 60).natAbs ++ " мин") ∧
    (0 ≤ secs → secs < 3600 → humanize_delta secs =
      "через " ++ toString (Int.fdiv secs 60) ++ " мин") ∧
    (3600 ≤ secs → humanize_delta secs =
      "через " ++ toString ((Int.fdiv secs 60).toNat / 60) ++ " ч " ++
        toString ((Int.fdiv secs 60).toNat % 60) ++ " мин") := by
  have hfd : Int.fdiv secs 60 = secs / 60 := Int.fdiv_eq_ediv secs (by norm_num)
  refine ⟨?_, ?_, ?_⟩
  · intro h
    have hm : Int.fdiv secs 60 < 0 := by rw [hfd]; omega
    simp [humanize_delta, hm]
  · intro h0 h1
    have hm : ¬ Int.fdiv secs 60 < 0 := by rw [hfd]; omega
    have hm2 : Int.fdiv secs 60 < 60 := by rw [hfd]; omega
    simp [humanize_delta, hm, hm2]
  · intro h
    have hm : ¬ Int.fdiv secs 60 < 0 := by rw [hfd]; omega
    have hm2 : ¬ Int.fdiv secs 60 < 60 := by rw [hfd]; omega
    simp [humanize_delta, hm, hm2]

/-- Witness for C6 at −30 seconds: the overdue branch with the floored
minute count. -/
theorem C6_humanize_policy_witness :
    humanize_delta (-30) =
      "просрочено на " ++ toString (Int.fdiv (-30 : Int) 60).natAbs ++ " мин" :=
  (C6_humanize_policy (-30)).1 (by decide)

/-- C7 (amended): transport outcomes never influence the tick — under any
other transport behavior the tick yields the same log, the same message
sequence up to the delivery flag, and the same exception flag, so a failed
send cannot suppress sibling processing; but a store failure reading one
user's processes is caught only at the tick boundary: users before it are
fully processed, the remaining users of that tick are dropped, and the tick
still returns normally to the scheduling loop. -/
theorem C7_failure_isolation :
    (∀ (env : Env) (tOk' : Nat → String → Bool) (now : Int) (log : List LogKey),
      (reminders_tick { env with transportOk := tOk' } now log).1 =
        (reminders_tick env now log).1 ∧
      (reminders_tick { env with transportOk := tOk' } now log).2.1.map msgView =
        (reminders_tick env now log).2.1.map msgView ∧
      (reminders_tick { env with transportOk := tOk' } now log).2.2 =
        (reminders_tick env now log).2.2) ∧
    (∀ (env : Env) (now : Int) (log l1 : List LogKey) (m1 : List Msg)
        (us1 : List User) (u : User) (us2 : List User),
      env.users = us1 ++ u :: us2 →
      tickUsers env now us1 log = (l1, m1, false) →
      env.procs u.name = .error () →
      reminders_tick env now log = (l1, m1, true)) := by
  constructor
  · intro env tOk' now log
    exact tickUsers_transport env tOk' now env.users log
  · intro env now log l1 m1 us1 u us2 hu h1 herr
    have happ := tickUsers_append_ok env now us1 (u :: us2) log l1 m1 h1
    unfold reminders_tick
    rw [hu, happ]
    simp [tickUsers, herr]

/-- Witness for C7: in the two-user environment whose first process read
fails, the tick is caught at the tick boundary with nothing processed. -/
theorem C7_failure_isolation_witness :
    reminders_tick envFailRead 34200 [] = ([], [], true) :=
  C7_failure_isolation.2 envFailRead 34200 [] [] [] [] annaUser [ivanUser]
    rfl rfl rfl

/-- C7 (counterexample): one failing item does prevent its siblings — with
the store failing only for the first user's process read, the second user's
due process produces nothing in that tick, although the same tick instant
produces messages once the first user's read is repaired. -/
theorem C7_counterexample :
    reminders_tick envFailRead 34200 [] = ([], [], true) ∧
    (reminders_tick envOkRead 34200 []).2.1 ≠ [] := by
  refine ⟨by decide, by decide⟩

/-- C8 (counterexample): a registered user sending /start is answered with
the onboarding prompt, which is not the help text. -/
theorem C8_counterexample :
    handle_message emptyChatEnv (some "Кирилл") "/start" = (some start_reply, none) ∧
    start_reply ≠ build_help true := by
  refine ⟨by decide, by decide⟩

/-- C8 (amended): any text whose stripped form starts with "/start" is
answered with the onboarding prompt and registers nobody — whatever the
sender's registration state, so an unregistered sender of /start stays
unregistered; and a registered user's text that starts with none of
/start, /my, /check is answered with the help text. -/
theorem C8_registered_routing :
    (∀ (env : ChatEnv) (reg : Option String) (text : String),
      textStartsWith "/start" (pyStripS text) = true →
      handle_message env reg text = (some start_reply, none)) ∧
    (∀ (env : ChatEnv) (name text : String),
      textStartsWith "/start" (pyStripS text) = false →
      textStartsWith "/my" (pyStripS text) = false →
      textStartsWith "/check" (pyStripS text) = false →
      handle_message env (some name) text = (some (build_help true), none)) := by
  constructor
  · intro env reg text h
    simp [handle_message, h]
  · intro env name text h1 h2 h3
    simp [handle_message, h1, h2, h3]

/-- Witness for C8: unregistered /start gets the prompt and registers
nobody; a registered user's plain text gets the help text. -/
theorem C8_registered_routing_witness :
    handle_message emptyChatEnv none "/start" = (some start_reply, none) ∧
    handle_message emptyChatEnv (some "Кирилл") "привет" =
      (some (build_help true), none) :=
  ⟨C8_registered_routing.1 emptyChatEnv none "/start" (by decide),
   C8_registered_routing.2 emptyChatEnv "Кирилл" "привет"
     (by decide) (by decide) (by decide)⟩

/-- C9 (counterexample): the four delimiters are not mutually
interchangeable — with '.' inside the date the argument parses, with ','
in the same positions it does not. -/
theorem C9_counterexample :
    parse_check_datetime "/check 15.12.2025 09:00" =
      some { year := 2025, month := 12, day := 15, hour := 9, minute := 0 } ∧
    parse_check_datetime "/check 15,12,2025 09:00" = none := by
  refine ⟨by decide, by decide⟩

/-- C9 (amended): '.' and '/' are interchangeable (both normalize to '-',
the date-component delimiter) and ',' and 'T' are interchangeable (both
normalize to a space, the date-time separator) — swapping either pair
anywhere in the message leaves the parse result unchanged — and whenever
the /check argument fails to parse, the registered sender receives the
usage hint. -/
theorem C9_delimiters :
    (∀ s : String,
      parse_check_datetime (mapStr swapDotSlash s) = parse_check_datetime s) ∧
    (∀ s : String,
      parse_check_datetime (mapStr swapCommaT s) = parse_check_datetime s) ∧
    (∀ (env : ChatEnv) (name text : String),
      textStartsWith "/check" (pyStripS text) = true →
      parse_check_datetime (pyStripS text) = none →
      handle_message env (some name) text = (some usage_hint, none)) := by
  refine ⟨?_, ?_, ?_⟩
  · intro s
    exact parse_chars_map_inv swapDotSlash swapDotSlash_ws swapDotSlash_norm s.toList
  · intro s
    exact parse_chars_map_inv swapCommaT swapCommaT_ws swapCommaT_norm s.toList
  · intro env name text hck hparse
    have hstart : textStartsWith "/start" (pyStripS text) = false :=
      check_not_start hck
    have hmy : textStartsWith "/my" (pyStripS text) = false :=
      check_not_my hck
    simp [handle_message, hstart, hmy, hck, hparse]

/-- Witness for C9: a registered user whose /check argument fails to parse
receives the usage hint. -/
theorem C9_delimiters_witness :
    handle_message emptyChatEnv (some "Иван") "/check 15,12,2025 09:00" =
      (some usage_hint, none) :=
  C9_delimiters.2.2 emptyChatEnv "Иван" "/check 15,12,2025 09:00"
    (by decide) (by decide)

/-- C10: at delta exactly zero the deadline-check evaluator reports the
non-overdue branch ("успеваете, осталось 0 мин"), while the reminder
engine at the very same instant skips the process — the two components
make opposite boundary choices at the deadline instant. -/
theorem C10_zero_delta_boundary (now : PyDateTime) (p : Process)
    (tOk : Nat → String → Bool) (u : User) (log : List LogKey)
    (hdl : deadline_datetime (instantOf now) p.deadline_time = some (instantOf now)) :
    check_line now p = some ("• " ++ p.name ++ " — дедлайн " ++ p.deadline_time ++
      " — ✅ успеваете, осталось 0 мин") ∧
    tickProcess tOk (instantOf now) u p log = (log, [], false) := by
  constructor
  · have hz : pyReplaceStr (humanize_delta 0) "через " "" = "0 мин" := by decide
    simp [check_line, hdl, hz, String.append_assoc]
  · have hdd : deadline_datetime (dateOf (instantOf now) * 86400) p.deadline_time =
        some (instantOf now) := by
      rw [deadline_datetime_day]
      exact hdl
    simp [tickProcess, hdd]

/-- Witness for C10: the seeded 10:30 process checked at 15-12-2025 10:30
exactly. -/
theorem C10_zero_delta_boundary_witness :
    check_line { year := 2025, month := 12, day := 15, hour := 10, minute := 30 }
        kopyProcess =
      some ("• " ++ kopyProcess.name ++ " — дедлайн " ++ kopyProcess.deadline_time ++
        " — ✅ успеваете, осталось 0 мин") ∧
    tickProcess alwaysOk
      (instantOf { year := 2025, month := 12, day := 15, hour := 10, minute := 30 })
      ivanUser kopyProcess [] = ([], [], false) :=
  C10_zero_delta_boundary
    { year := 2025, month := 12, day := 15, hour := 10, minute := 30 }
    kopyProcess alwaysOk ivanUser [] (by decide)

end BusinessBot
